import Mathlib

/-!
Shallow embedding of the customer CRUD service in `server.js` (an Express
application backed by a MariaDB pool), together with theorems checking the
repository's specification against it.

Strings are modelled as lists of Unicode code points (`List Nat`); the case
conversions of `String.prototype.toLowerCase`/`toUpperCase` are modelled on
the ASCII range, which covers every character class the handlers distinguish
(the regex `\b[a-z]` and the validators are ASCII-based).  The database is
modelled as a list of customer rows keyed by `cust_code`; an SQL `UPDATE`/
`DELETE` touches exactly the rows whose `cust_code` equals the bound
parameter, and `affectedRows` is the number of matched rows.  A store call
that throws is modelled by a boolean `queryThrows` oracle, and the
acquire/release calls on the pool are counted in `ConnStats`.
-/

namespace RestApi

/-- Code points removed by `String.prototype.trim` (ECMAScript WhiteSpace and
LineTerminator). -/
def isWsCode (n : Nat) : Bool :=
  decide (n = 9 ∨ n = 10 ∨ n = 11 ∨ n = 12 ∨ n = 13 ∨ n = 32 ∨ n = 160 ∨
    n = 5760 ∨ (8192 ≤ n ∧ n ≤ 8202) ∨ n = 8232 ∨ n = 8233 ∨ n = 8239 ∨
    n = 8287 ∨ n = 12288 ∨ n = 65279)

/-- ASCII model of `String.prototype.toLowerCase` on one code point. -/
def lowerCode (n : Nat) : Nat :=
  if 65 ≤ n ∧ n ≤ 90 then n + 32 else n

/-- ASCII model of `c.toUpperCase()` on one code point. -/
def upperCode (n : Nat) : Nat :=
  if 97 ≤ n ∧ n ≤ 122 then n - 32 else n

/-- The character class `[a-z]` of the regex in `titleCase`. -/
def isLowerCode (n : Nat) : Bool :=
  decide (97 ≤ n ∧ n ≤ 122)

/-- The regex word-character class `\w` = `[A-Za-z0-9_]`, which determines
the word boundaries `\b` used by `titleCase`. -/
def isWordCode (n : Nat) : Bool :=
  decide ((97 ≤ n ∧ n ≤ 122) ∨ (65 ≤ n ∧ n ≤ 90) ∨ (48 ≤ n ∧ n ≤ 57) ∨ n = 95)

/-- Model of `String.prototype.trim`: drop whitespace from both ends. -/
def jsTrim (l : List Nat) : List Nat :=
  ((l.dropWhile isWsCode).reverse.dropWhile isWsCode).reverse

/-- Model of `String.prototype.toLowerCase` (ASCII range). -/
def jsToLower (l : List Nat) : List Nat :=
  l.map lowerCode

/-- Model of `.replace(/\b[a-z]/g, c => c.toUpperCase())`: a lowercase letter is
uppercased exactly when the previous character is not a `\w` character
(`w` tracks whether it is; matches are located in the original string, and a
match is a single character, so the boundary test always looks at the
original neighbour). -/
def bReplace (w : Bool) : List Nat → List Nat
  | [] => []
  | c :: cs => (if !w && isLowerCode c then upperCode c else c) :: bReplace (isWordCode c) cs

/-- The helper `titleCase` from `server.js`:
`s.toString().trim().toLowerCase().replace(/\b[a-z]/g, c => c.toUpperCase())`. -/
def titleCaseL (l : List Nat) : List Nat :=
  bReplace false (jsToLower (jsTrim l))

/-- Modelled from the spec: uppercase the first character of each
whitespace-delimited word (`atStart` tracks whether the previous character
was whitespace or the beginning of the string). -/
def upWords (atStart : Bool) : List Nat → List Nat
  | [] => []
  | c :: cs => (if atStart && !isWsCode c then upperCode c else c) :: upWords (isWsCode c) cs

/-- Modelled from the spec: the reference title-case transform — lowercase
the full string, then uppercase the first letter of each whitespace-delimited
word. -/
def specTitleCase (l : List Nat) : List Nat :=
  upWords true (jsToLower l)

/-- validator.js `escape` on one code point: `& " ' < > / \ `` become HTML
entities.  (The sequential global replaces of validator.js, `&` first, equal
this single pass because no entity introduces a character that a later
replace targets.) -/
def escapeChar (n : Nat) : List Nat :=
  if n = 38 then [38, 97, 109, 112, 59]
  else if n = 34 then [38, 113, 117, 111, 116, 59]
  else if n = 39 then [38, 35, 120, 50, 55, 59]
  else if n = 60 then [38, 108, 116, 59]
  else if n = 62 then [38, 103, 116, 59]
  else if n = 47 then [38, 35, 120, 50, 70, 59]
  else if n = 92 then [38, 35, 120, 53, 67, 59]
  else if n = 96 then [38, 35, 57, 54, 59]
  else [n]

/-- The `.escape()` sanitizer of `body('cust_city')` on POST. -/
def escapeCode (l : List Nat) : List Nat :=
  l.foldr (fun c acc => escapeChar c ++ acc) []

/-- A row of the `customer` table. -/
structure Row where
  cust_code : List Nat
  cust_name : List Nat
  cust_city : Option (List Nat)
deriving DecidableEq, Repr

/-- Pool acquire/release counters for one request. -/
structure ConnStats where
  acquired : Nat
  released : Nat
deriving DecidableEq, Repr

/-- Columns a PATCH statement may set. -/
inductive FieldId
  | name
  | city
deriving DecidableEq, Repr

/-- JSON body of `PATCH /customers/:id` (`none` = property absent). -/
structure PatchBody where
  cust_name : Option (List Nat)
  cust_city : Option (List Nat)
deriving DecidableEq, Repr

/-- JSON body of `PUT /customers/:id`. -/
structure PutBody where
  cust_name : Option (List Nat)
  cust_city : Option (List Nat)
deriving DecidableEq, Repr

/-- JSON body of `POST /customers`. -/
structure PostBody where
  cust_code : Option (List Nat)
  cust_name : Option (List Nat)
  cust_city : Option (List Nat)
deriving DecidableEq, Repr

/-- A required validator chain `.trim().isLength({min:1})` / `.trim().notEmpty()`:
passes iff the field is present and trims to a non-empty string. -/
def reqNonEmpty (v : Option (List Nat)) : Bool :=
  match v with
  | some s => decide (jsTrim s ≠ [])
  | none => false

/-- Number of rows matched by `WHERE cust_code = ?` (the `affectedRows` the
driver reports for the UPDATE/DELETE statements here). -/
def matchCount (db : List Row) (id : List Nat) : Nat :=
  (db.filter (fun r => decide (r.cust_code = id))).length

/-- The PATCH handler's conditional field-list construction: one
`(column, value)` pair per body property that is not `undefined`, name first,
each value run through the validator's `.trim()` and then `titleCase`. -/
def patchFields (b : PatchBody) : List (FieldId × List Nat) :=
  (match b.cust_name.map jsTrim with
   | some n => [(FieldId.name, titleCaseL n)]
   | none => [])
  ++ (match b.cust_city.map jsTrim with
      | some c => [(FieldId.city, titleCaseL c)]
      | none => [])

/-- Effect of one `SET column=?` item on a matched row. -/
def applyField (r : Row) (f : FieldId × List Nat) : Row :=
  match f.1 with
  | FieldId.name => { r with cust_name := f.2 }
  | FieldId.city => { r with cust_city := some f.2 }

/-- Effect of the whole `SET` list on a matched row. -/
def applyFields (r : Row) (fs : List (FieldId × List Nat)) : Row :=
  fs.foldl applyField r

/-- Statement `UPDATE customer SET <fs> WHERE cust_code = id`. -/
def runUpdate (db : List Row) (id : List Nat) (fs : List (FieldId × List Nat)) :
    List Row × Nat :=
  (db.map (fun r => if r.cust_code = id then applyFields r fs else r), matchCount db id)

/-- Statement `DELETE FROM customer WHERE cust_code = id`. -/
def runDelete (db : List Row) (id : List Nat) : List Row × Nat :=
  (db.filter (fun r => decide (¬ r.cust_code = id)), matchCount db id)

/-- Handler of `GET /health`: acquire, `SELECT 1`, release; the catch answers 500 and
performs no release. -/
def healthHandler (connThrows queryThrows : Bool) : Nat × ConnStats :=
  if connThrows then (500, ⟨0, 0⟩)
  else if queryThrows then (500, ⟨1, 0⟩)
  else (200, ⟨1, 1⟩)

/-- Handler of `GET /customers`, `/orders`, `/products`: acquire, `SELECT ... LIMIT 50`,
release; the catch answers 500 and performs no release. -/
def listHandler (rows : List Row) (queryThrows : Bool) : Nat × List Row × ConnStats :=
  if queryThrows then (500, [], ⟨1, 0⟩)
  else (200, rows.take 50, ⟨1, 1⟩)

/-- The city value `POST /customers` binds into the INSERT: the validator ran
`.trim().escape()` in place, then the handler evaluates
`req.body.cust_city ? titleCase(req.body.cust_city) : null` (an empty string
is falsy, hence `null`). -/
def postCityParam (city : Option (List Nat)) : Option (List Nat) :=
  match city.map (fun c => escapeCode (jsTrim c)) with
  | none => none
  | some c => if c = [] then none else some (titleCaseL c)

/-- The city value `PUT /customers/:id` binds: validator `.trim()` only, then
the same truthiness test. -/
def putCityParam (city : Option (List Nat)) : Option (List Nat) :=
  match city.map jsTrim with
  | none => none
  | some c => if c = [] then none else some (titleCaseL c)

/-- Handler of `POST /customers`: validators, then INSERT of the normalized payload.
The handler re-trims `cust_code` (the validator already trimmed in place). -/
def postHandler (db : List Row) (b : PostBody) (queryThrows : Bool) :
    Nat × List Row × ConnStats :=
  if reqNonEmpty b.cust_code && reqNonEmpty b.cust_name then
    let payload : Row :=
      { cust_code := jsTrim (jsTrim (b.cust_code.getD []))
        cust_name := titleCaseL (jsTrim (b.cust_name.getD []))
        cust_city := postCityParam b.cust_city }
    if queryThrows then (500, db, ⟨1, 0⟩)
    else (201, db ++ [payload], ⟨1, 1⟩)
  else (400, db, ⟨0, 0⟩)

/-- Handler of `PATCH /customers/:id`: validates the id, applies the optional trims,
the `No updatable fields` 400 before any pool access, then the UPDATE. -/
def patchHandler (db : List Row) (id : List Nat) (b : PatchBody) (queryThrows : Bool) :
    Nat × List Row × ConnStats :=
  if jsTrim id = [] then (400, db, ⟨0, 0⟩)
  else
    let fs := patchFields b
    if fs = [] then (400, db, ⟨0, 0⟩)
    else if queryThrows then (500, db, ⟨1, 0⟩)
    else
      let u := runUpdate db (jsTrim id) fs
      if u.2 = 0 then (404, u.1, ⟨1, 1⟩)
      else (200, u.1, ⟨1, 1⟩)

/-- Handler of `PUT /customers/:id`: requires a non-empty trimmed `cust_name`, then
`UPDATE customer SET cust_name=?, cust_city=? WHERE cust_code=?`. -/
def putHandler (db : List Row) (id : List Nat) (b : PutBody) (queryThrows : Bool) :
    Nat × List Row × ConnStats :=
  if jsTrim id = [] then (400, db, ⟨0, 0⟩)
  else if !reqNonEmpty b.cust_name then (400, db, ⟨0, 0⟩)
  else if queryThrows then (500, db, ⟨1, 0⟩)
  else
    let name := titleCaseL (jsTrim (b.cust_name.getD []))
    let city := putCityParam b.cust_city
    let db' := db.map (fun r =>
      if r.cust_code = jsTrim id then { r with cust_name := name, cust_city := city } else r)
    if matchCount db (jsTrim id) = 0 then (404, db', ⟨1, 1⟩)
    else (200, db', ⟨1, 1⟩)

/-- Handler of `DELETE /customers/:id`. -/
def deleteHandler (db : List Row) (id : List Nat) (queryThrows : Bool) :
    Nat × List Row × ConnStats :=
  if jsTrim id = [] then (400, db, ⟨0, 0⟩)
  else if queryThrows then (500, db, ⟨1, 0⟩)
  else
    let d := runDelete db (jsTrim id)
    if d.2 = 0 then (404, d.1, ⟨1, 1⟩)
    else (200, d.1, ⟨1, 1⟩)

/-! ### Character-code facts -/

theorem isWsCode_lowerCode (n : Nat) : isWsCode (lowerCode n) = isWsCode n := by
  unfold lowerCode
  split
  · unfold isWsCode
    rw [decide_eq_decide]
    omega
  · rfl

theorem isWsCode_upperCode (n : Nat) : isWsCode (upperCode n) = isWsCode n := by
  unfold upperCode
  split
  · unfold isWsCode
    rw [decide_eq_decide]
    omega
  · rfl

theorem ws_not_lower {n : Nat} (h : isWsCode n = true) : isLowerCode n = false := by
  simp only [isWsCode, decide_eq_true_eq] at h
  simp only [isLowerCode, decide_eq_false_iff_not]
  omega

theorem ws_not_word {n : Nat} (h : isWsCode n = true) : isWordCode n = false := by
  simp only [isWsCode, decide_eq_true_eq] at h
  simp only [isWordCode, decide_eq_false_iff_not]
  omega

theorem upperCode_of_not_lower {n : Nat} (h : isLowerCode n = false) : upperCode n = n := by
  simp only [isLowerCode, decide_eq_false_iff_not] at h
  unfold upperCode
  rw [if_neg h]

theorem lowerCode_upperCode {n : Nat} (h : isLowerCode n = true) : lowerCode (upperCode n) = n := by
  simp only [isLowerCode, decide_eq_true_eq] at h
  unfold upperCode lowerCode
  split
  · split <;> omega
  · omega

theorem lowerCode_idem (n : Nat) : lowerCode (lowerCode n) = lowerCode n := by
  unfold lowerCode
  split
  · split <;> omega
  · rfl

theorem word_ws_lowerCode {n : Nat} (h : (isWordCode n || isWsCode n) = true) :
    (isWordCode (lowerCode n) || isWsCode (lowerCode n)) = true := by
  simp only [isWordCode, isWsCode, Bool.or_eq_true, decide_eq_true_eq] at h ⊢
  unfold lowerCode
  split <;> omega

/-! ### Whitespace masks and trimming -/

theorem wsMask_jsToLower (l : List Nat) : (jsToLower l).map isWsCode = l.map isWsCode := by
  unfold jsToLower
  rw [List.map_map]
  exact List.map_congr_left fun a _ => isWsCode_lowerCode a

theorem wsMask_bReplace (w : Bool) (l : List Nat) :
    (bReplace w l).map isWsCode = l.map isWsCode := by
  induction l generalizing w with
  | nil => rfl
  | cons c cs ih =>
    simp only [bReplace, List.map_cons, ih]
    congr 1
    split
    · exact isWsCode_upperCode c
    · rfl

theorem dropWhile_self_iff (p : Nat → Bool) (x : List Nat) :
    x.dropWhile p = x ↔ (x.map p).head? ≠ some true := by
  cases x with
  | nil => simp
  | cons c cs =>
    rw [List.dropWhile_cons]
    by_cases hp : p c = true
    · simp only [hp, if_true, List.map_cons, List.head?_cons, ne_eq, not_true_eq_false,
        iff_false]
      intro h
      have hle := (List.dropWhile_sublist (p := p) (l := cs)).length_le
      rw [h] at hle
      simp only [List.length_cons] at hle
      omega
    · simp [hp]

theorem jsTrim_eq_self_iff (x : List Nat) :
    jsTrim x = x ↔
      (x.map isWsCode).head? ≠ some true ∧ (x.map isWsCode).getLast? ≠ some true := by
  unfold jsTrim
  constructor
  · intro h
    have h1 : (x.dropWhile isWsCode).length ≤ x.length :=
      (List.dropWhile_sublist _).length_le
    have h2 : ((x.dropWhile isWsCode).reverse.dropWhile isWsCode).length ≤
        (x.dropWhile isWsCode).length := by
      have := (List.dropWhile_sublist (p := isWsCode)
        (l := (x.dropWhile isWsCode).reverse)).length_le
      simpa using this
    have hlen : ((x.dropWhile isWsCode).reverse.dropWhile isWsCode).length = x.length := by
      have := congrArg List.length h
      simpa using this
    have hfront : x.dropWhile isWsCode = x :=
      (List.dropWhile_suffix _).eq_of_length (by omega)
    rw [hfront] at h
    have hback : x.reverse.dropWhile isWsCode = x.reverse := by
      have := congrArg List.reverse h
      simpa using this
    refine ⟨(dropWhile_self_iff _ _).mp hfront, ?_⟩
    have := (dropWhile_self_iff isWsCode x.reverse).mp hback
    rwa [List.map_reverse, List.head?_reverse] at this
  · rintro ⟨hh, hl⟩
    have hfront : x.dropWhile isWsCode = x := (dropWhile_self_iff _ _).mpr hh
    have hback : x.reverse.dropWhile isWsCode = x.reverse := by
      apply (dropWhile_self_iff _ _).mpr
      rwa [List.map_reverse, List.head?_reverse]
    rw [hfront, hback, List.reverse_reverse]

theorem jsTrim_eq_self_of_mask {x y : List Nat} (hm : y.map isWsCode = x.map isWsCode)
    (hx : jsTrim x = x) : jsTrim y = y := by
  rw [jsTrim_eq_self_iff] at hx ⊢
  rw [hm]
  exact hx

theorem getLast?_of_suffix {z w : List Nat} (h : z <:+ w) (hz : z ≠ []) :
    w.getLast? = z.getLast? := by
  obtain ⟨u, rfl⟩ := h
  rw [List.getLast?_append]
  cases hzz : z.getLast? with
  | none => exact absurd (List.getLast?_eq_none_iff.mp hzz) hz
  | some v => rfl

theorem head?_dropWhile_ne_true (p : Nat → Bool) (l : List Nat) :
    ((l.dropWhile p).map p).head? ≠ some true := by
  have h := List.head?_dropWhile_not p l
  rw [List.head?_map]
  cases hh : (l.dropWhile p).head? with
  | none => simp
  | some c =>
    rw [hh] at h
    simp only [Option.map_some']
    simp only [h]
    simp

theorem getLast?_map (p : Nat → Bool) (z : List Nat) :
    (z.map p).getLast? = z.getLast?.map p := by
  rw [← List.head?_reverse, ← List.map_reverse, List.head?_map, List.head?_reverse]

theorem jsTrim_idem (l : List Nat) : jsTrim (jsTrim l) = jsTrim l := by
  apply (jsTrim_eq_self_iff _).mpr
  constructor
  · -- the head of the trimmed list is the head of `dropWhile` on `l`
    unfold jsTrim
    rw [List.map_reverse, List.head?_reverse, getLast?_map]
    by_cases hz : (l.dropWhile isWsCode).reverse.dropWhile isWsCode = []
    · simp [hz]
    · rw [← getLast?_of_suffix (List.dropWhile_suffix _) hz, List.getLast?_reverse]
      have h := List.head?_dropWhile_not isWsCode l
      cases ha : (l.dropWhile isWsCode).head? with
      | none => simp
      | some c =>
        rw [ha] at h
        simp [h]
  · -- the last of the trimmed list is the head of the second `dropWhile`
    unfold jsTrim
    rw [getLast?_map, List.getLast?_reverse]
    have h := List.head?_dropWhile_not isWsCode (l.dropWhile isWsCode).reverse
    cases ha : ((l.dropWhile isWsCode).reverse.dropWhile isWsCode).head? with
    | none => simp [ha]
    | some c =>
      rw [ha] at h
      simp [ha, h]

theorem jsTrim_titleCaseL (l : List Nat) :
    jsTrim (bReplace false (jsToLower (jsTrim l))) = bReplace false (jsToLower (jsTrim l)) := by
  apply jsTrim_eq_self_of_mask (x := jsTrim l)
  · rw [wsMask_bReplace, wsMask_jsToLower]
  · exact jsTrim_idem l

theorem jsToLower_bReplace_jsToLower (x : List Nat) (w : Bool) :
    jsToLower (bReplace w (jsToLower x)) = jsToLower x := by
  induction x generalizing w with
  | nil => rfl
  | cons c cs ih =>
    simp only [jsToLower, List.map_cons, bReplace] at *
    congr 1
    · split
      · next hcond =>
        have hl : isLowerCode (lowerCode c) = true := by
          cases h1 : isLowerCode (lowerCode c)
          · rw [h1] at hcond
            simp at hcond
          · rfl
        rw [lowerCode_upperCode hl]
      · exact lowerCode_idem c
    · exact ih (isWordCode (lowerCode c))

/-- On strings whose characters are all `\w` characters or whitespace, the
`\b`-driven replacement coincides with the whitespace-delimited word-start
capitalization (`w` = previous character is a word character; `!w` = at a
word start). -/
theorem bReplace_eq_upWords {m : List Nat}
    (hm : ∀ c ∈ m, (isWordCode c || isWsCode c) = true) (w : Bool) :
    bReplace w m = upWords (!w) m := by
  induction m generalizing w with
  | nil => rfl
  | cons c cs ih =>
    have hc := hm c (List.mem_cons_self c cs)
    have hcs : ∀ c' ∈ cs, (isWordCode c' || isWsCode c') = true :=
      fun c' h => hm c' (List.mem_cons_of_mem c h)
    simp only [bReplace, upWords]
    by_cases hw : isWsCode c = true
    · have hnl : isLowerCode c = false := ws_not_lower hw
      have hnw : isWordCode c = false := ws_not_word hw
      rw [hw, hnl, hnw]
      simp only [Bool.and_false, Bool.not_true, Bool.and_false, if_false]
      rw [ih hcs false]
      rfl
    · have hword : isWordCode c = true := by
        cases h1 : isWordCode c
        · rw [h1] at hc
          simp only [Bool.false_or] at hc
          exact absurd hc hw
        · rfl
      have hwb : isWsCode c = false := by
        cases h2 : isWsCode c
        · rfl
        · exact absurd h2 hw
      rw [hword, hwb, ih hcs true]
      simp only [Bool.not_false, Bool.and_true, Bool.not_true]
      congr 1
      cases w
      · simp only [Bool.not_false, if_true]
        cases h3 : isLowerCode c
        · rw [upperCode_of_not_lower h3]
          simp
        · simp
      · simp

/-! ### Markup characters through the sanitizers -/

theorem notin_escapeChar {a : Nat} (ha : a = 60 ∨ a = 62) (n : Nat) : a ∉ escapeChar n := by
  unfold escapeChar
  rcases ha with rfl | rfl <;>
    · split
      · decide
      · split
        · decide
        · split
          · decide
          · split
            · decide
            · split
              · decide
              · split
                · decide
                · split
                  · decide
                  · split
                    · decide
                    · simp only [List.mem_singleton]
                      omega

theorem notin_escapeCode {a : Nat} (ha : a = 60 ∨ a = 62) (l : List Nat) :
    a ∉ escapeCode l := by
  induction l with
  | nil => simp [escapeCode]
  | cons c cs ih =>
    simp only [escapeCode, List.foldr_cons, List.mem_append] at ih ⊢
    rintro (h | h)
    · exact notin_escapeChar ha c h
    · exact ih h

theorem mem_of_mem_jsTrim {a : Nat} {l : List Nat} (h : a ∈ jsTrim l) : a ∈ l := by
  unfold jsTrim at h
  rw [List.mem_reverse] at h
  have h2 := List.dropWhile_subset _ h
  rw [List.mem_reverse] at h2
  exact List.dropWhile_subset _ h2

theorem lowerCode_markup {a n : Nat} (ha : a = 60 ∨ a = 62) (h : lowerCode n = a) : n = a := by
  unfold lowerCode at h
  rcases ha with rfl | rfl <;> (split at h <;> omega)

theorem notin_bReplace_markup {a : Nat} (ha : a = 60 ∨ a = 62) {y : List Nat} (w : Bool)
    (h : a ∉ y) : a ∉ bReplace w y := by
  induction y generalizing w with
  | nil => simp [bReplace]
  | cons c cs ih =>
    simp only [List.mem_cons, not_or] at h
    simp only [bReplace, List.mem_cons, not_or]
    refine ⟨?_, ih _ h.2⟩
    split
    · next hcond =>
      have hl : isLowerCode c = true := by
        cases h1 : isLowerCode c
        · rw [h1] at hcond
          simp at hcond
        · rfl
      simp only [isLowerCode, decide_eq_true_eq] at hl
      unfold upperCode
      rcases ha with rfl | rfl <;> (split <;> omega)
    · intro hh
      exact h.1 hh

theorem notin_titleCaseL_markup {a : Nat} (ha : a = 60 ∨ a = 62) {x : List Nat}
    (h : a ∉ x) : a ∉ titleCaseL x := by
  unfold titleCaseL
  apply notin_bReplace_markup ha
  intro hm
  rcases List.mem_map.mp hm with ⟨b, hb, hba⟩
  exact h (lowerCode_markup ha hba ▸ mem_of_mem_jsTrim hb)

theorem mem_sixty_bReplace_jsToLower {x : List Nat} (w : Bool) (h : 60 ∈ x) :
    60 ∈ bReplace w (jsToLower x) := by
  induction x generalizing w with
  | nil => simp at h
  | cons c cs ih =>
    simp only [jsToLower, List.map_cons, bReplace]
    rcases List.mem_cons.mp h with rfl | h2
    · have hc : lowerCode 60 = 60 := by decide
      rw [hc]
      have hl : (!w && isLowerCode 60) = false := by
        cases w <;> decide
      rw [hl]
      exact List.mem_cons_self _ _
    · exact List.mem_cons_of_mem _ (ih _ h2)

/-! ### Claim theorems -/

/-- C1: the spec asserts that every endpoint acquiring a pooled connection
releases it before the response on every path, success or throw.  The code
violates this: each handler's `catch` answers 500 without calling
`c.release()`, so a throwing query leaks the acquired connection.  This
theorem evaluates the handlers at query-throwing inputs (one connection
acquired, none released), with success-path evaluations for contrast. -/
theorem handlers_leak_connection_when_query_throws :
    healthHandler false true = (500, ⟨1, 0⟩)
    ∧ listHandler [] true = (500, [], ⟨1, 0⟩)
    ∧ postHandler [] ⟨some [99, 49], some [106], none⟩ true = (500, [], ⟨1, 0⟩)
    ∧ patchHandler [⟨[99, 49], [74], none⟩] [99, 49] ⟨none, some [120]⟩ true
        = (500, [⟨[99, 49], [74], none⟩], ⟨1, 0⟩)
    ∧ putHandler [⟨[99, 49], [74], none⟩] [99, 49] ⟨some [106], none⟩ true
        = (500, [⟨[99, 49], [74], none⟩], ⟨1, 0⟩)
    ∧ deleteHandler [⟨[99, 49], [74], none⟩] [99, 49] true
        = (500, [⟨[99, 49], [74], none⟩], ⟨1, 0⟩)
    ∧ healthHandler false false = (200, ⟨1, 1⟩)
    ∧ (patchHandler [⟨[99, 49], [74], none⟩] [99, 49] ⟨none, some [120]⟩ false).2.2
        = ⟨1, 1⟩ := by
  decide

/-- C2: the PATCH update statement contains exactly the explicitly supplied
fields and no others, and a PATCH supplying only `cust_city` leaves every
stored `cust_name` unchanged. -/
theorem patch_statement_contains_exactly_supplied_fields (b : PatchBody)
    (db : List Row) (id city : List Nat) :
    ((FieldId.name ∈ (patchFields b).map Prod.fst) ↔ b.cust_name.isSome = true)
    ∧ ((FieldId.city ∈ (patchFields b).map Prod.fst) ↔ b.cust_city.isSome = true)
    ∧ (runUpdate db id (patchFields ⟨none, some city⟩)).1.map Row.cust_name
        = db.map Row.cust_name := by
  refine ⟨?_, ?_, ?_⟩
  · rcases b with ⟨n, c⟩
    cases n <;> cases c <;> simp [patchFields]
  · rcases b with ⟨n, c⟩
    cases n <;> cases c <;> simp [patchFields]
  · unfold runUpdate
    rw [List.map_map]
    apply List.map_congr_left
    intro r hr
    by_cases hc : r.cust_code = id
    · simp [Function.comp, hc, patchFields, applyFields, applyField]
    · simp [Function.comp, hc]

/-- C3: a PUT that supplies `cust_name` but omits `cust_city` answers 200 on
an existing row and stores `cust_city` as absent (`null`) for every row the
key matches, even if a city was stored before. -/
theorem put_omitting_city_clears_it (db : List Row) (id name : List Nat)
    (hid : jsTrim id ≠ []) (hname : jsTrim name ≠ [])
    (hex : ∃ r ∈ db, r.cust_code = jsTrim id) :
    (putHandler db id ⟨some name, none⟩ false).1 = 200
    ∧ ∀ r ∈ (putHandler db id ⟨some name, none⟩ false).2.1,
        r.cust_code = jsTrim id → r.cust_city = none := by
  have hmc : matchCount db (jsTrim id) ≠ 0 := by
    obtain ⟨r0, hr0, hc0⟩ := hex
    unfold matchCount
    have hmem : r0 ∈ db.filter (fun r => decide (r.cust_code = jsTrim id)) :=
      List.mem_filter.mpr ⟨hr0, by simp [hc0]⟩
    intro hlen
    rw [List.length_eq_zero] at hlen
    rw [hlen] at hmem
    simp at hmem
  have hval : reqNonEmpty (some name) = true := by simp [reqNonEmpty, hname]
  have hres : putHandler db id ⟨some name, none⟩ false =
      (200, db.map (fun r => if r.cust_code = jsTrim id then
        { r with cust_name := titleCaseL (jsTrim name), cust_city := none } else r),
       ⟨1, 1⟩) := by
    simp [putHandler, hid, hval, hmc, putCityParam]
  rw [hres]
  refine ⟨rfl, ?_⟩
  intro r hrm hcode
  rcases List.mem_map.mp hrm with ⟨r0, hr0, rfl⟩
  by_cases h0 : r0.cust_code = jsTrim id
  · simp [h0]
  · rw [if_neg h0] at hcode ⊢
    exact absurd hcode h0

/-- Witness for C3 at a one-row database. -/
theorem put_omitting_city_clears_it_witness :
    (putHandler [⟨[99, 49], [79], some [80]⟩] [99, 49] ⟨some [106], none⟩ false).1 = 200
    ∧ Row.cust_city ⟨[99, 49], [74], none⟩ = none := by
  have h := put_omitting_city_clears_it [⟨[99, 49], [79], some [80]⟩] [99, 49] [106]
    (by decide) (by decide) ⟨⟨[99, 49], [79], some [80]⟩, by decide, by decide⟩
  exact ⟨h.1, h.2 ⟨[99, 49], [74], none⟩ (by decide) (by decide)⟩

/-- C4: PATCH, PUT and DELETE addressed at a `cust_code` matching no row all
answer 404 and leave the stored rows unchanged. -/
theorem mutation_on_missing_code_404_and_unchanged (db : List Row)
    (id name : List Nat) (b : PatchBody) (city : Option (List Nat))
    (hid : jsTrim id ≠ []) (hname : jsTrim name ≠ [])
    (hb : patchFields b ≠ []) (hno : ∀ r ∈ db, r.cust_code ≠ jsTrim id) :
    patchHandler db id b false = (404, db, ⟨1, 1⟩)
    ∧ putHandler db id ⟨some name, city⟩ false = (404, db, ⟨1, 1⟩)
    ∧ deleteHandler db id false = (404, db, ⟨1, 1⟩) := by
  have hmc : matchCount db (jsTrim id) = 0 := by
    unfold matchCount
    rw [List.length_eq_zero, List.filter_eq_nil_iff]
    intro r hr
    simp [hno r hr]
  have hmap : ∀ g : Row → Row,
      db.map (fun r => if r.cust_code = jsTrim id then g r else r) = db := by
    intro g
    have h1 : db.map (fun r => if r.cust_code = jsTrim id then g r else r)
        = db.map (fun r => r) :=
      List.map_congr_left fun r hr => by rw [if_neg (hno r hr)]
    rw [h1, List.map_id']
  have hfil : db.filter (fun r => decide (¬ r.cust_code = jsTrim id)) = db := by
    rw [List.filter_eq_self]
    intro r hr
    simp [hno r hr]
  have hval : reqNonEmpty (some name) = true := by simp [reqNonEmpty, hname]
  refine ⟨?_, ?_, ?_⟩
  · simp [patchHandler, hid, hb, runUpdate, hmc, hmap]
  · simp [putHandler, hid, hval, hmc, hmap]
  · simp [deleteHandler, hid, runDelete, hmc, hfil]
    exact hno

/-- Witness for C4 at a database holding only the code "c2", addressed at
"c1". -/
theorem mutation_on_missing_code_witness :
    patchHandler [⟨[99, 50], [74], none⟩] [99, 49] ⟨none, some [120]⟩ false
      = (404, [⟨[99, 50], [74], none⟩], ⟨1, 1⟩)
    ∧ putHandler [⟨[99, 50], [74], none⟩] [99, 49] ⟨some [106], none⟩ false
      = (404, [⟨[99, 50], [74], none⟩], ⟨1, 1⟩)
    ∧ deleteHandler [⟨[99, 50], [74], none⟩] [99, 49] false
      = (404, [⟨[99, 50], [74], none⟩], ⟨1, 1⟩) :=
  mutation_on_missing_code_404_and_unchanged [⟨[99, 50], [74], none⟩] [99, 49] [106]
    ⟨none, some [120]⟩ none (by decide) (by decide) (by decide) (by decide)

/-- C5: a PATCH whose body supplies neither field answers 400, leaves the
database unchanged, and never acquires a connection or runs a statement. -/
theorem patch_without_fields_400_untouched (db : List Row) (id : List Nat) (qt : Bool) :
    patchHandler db id ⟨none, none⟩ qt = (400, db, ⟨0, 0⟩) := by
  unfold patchHandler
  split
  · rfl
  · simp [patchFields]

/-- C6 counterexample: on "jean-luc" the implementation's `\b[a-z]` boundary
fires after the hyphen and yields "Jean-Luc", while the whitespace-delimited
reference transform yields "Jean-luc". -/
theorem titleCase_differs_from_reference_cex :
    titleCaseL [106, 101, 97, 110, 45, 108, 117, 99]
      ≠ specTitleCase [106, 101, 97, 110, 45, 108, 117, 99]
    ∧ titleCaseL [106, 101, 97, 110, 45, 108, 117, 99]
      = [74, 101, 97, 110, 45, 76, 117, 99]
    ∧ specTitleCase [106, 101, 97, 110, 45, 108, 117, 99]
      = [74, 101, 97, 110, 45, 108, 117, 99] := by
  decide

/-- C6 amended: on input with no leading or trailing whitespace whose
characters are all word characters (ASCII letters, digits, underscore) or
whitespace, `titleCase` equals the reference transform (lowercase the string,
then uppercase the first letter of each whitespace-delimited word). -/
theorem titleCase_matches_reference_on_simple_words (l : List Nat)
    (ht : jsTrim l = l) (hc : ∀ c ∈ l, (isWordCode c || isWsCode c) = true) :
    titleCaseL l = specTitleCase l := by
  unfold titleCaseL specTitleCase
  rw [ht]
  have hm : ∀ c ∈ jsToLower l, (isWordCode c || isWsCode c) = true := by
    intro c hcm
    rcases List.mem_map.mp hcm with ⟨a, ha, rfl⟩
    exact word_ws_lowerCode (hc a ha)
  simpa using bReplace_eq_upWords hm false

/-- Witness for the amended C6 on "jane doe". -/
theorem titleCase_matches_reference_witness :
    titleCaseL [106, 97, 110, 101, 32, 100, 111, 101]
      = specTitleCase [106, 97, 110, 101, 32, 100, 111, 101] :=
  titleCase_matches_reference_on_simple_words _ (by decide) (by decide)

/-- C7: `titleCase` is idempotent — its output is already trimmed (trimming
only relocates case, never whitespace), re-lowercasing undoes the boundary
uppercasing, so the second pass reproduces the first. -/
theorem titleCase_idempotent (l : List Nat) :
    titleCaseL (titleCaseL l) = titleCaseL l := by
  unfold titleCaseL
  rw [jsTrim_titleCaseL l, jsToLower_bReplace_jsToLower]

/-- C8 counterexample: PATCH's validator chain `optional().trim()` has no
emptiness check, so a supplied `cust_name` of whitespace is accepted: the
request answers 200, acquires a connection, and blanks the stored name —
not the claimed 400 before any store access. -/
theorem patch_accepts_empty_supplied_name_cex :
    (patchHandler [⟨[99, 49], [74, 97], some [80]⟩] [99, 49]
        ⟨some [32, 32], none⟩ false).1 = 200
    ∧ (patchHandler [⟨[99, 49], [74, 97], some [80]⟩] [99, 49]
        ⟨some [32, 32], none⟩ false).1 ≠ 400
    ∧ (patchHandler [⟨[99, 49], [74, 97], some [80]⟩] [99, 49]
        ⟨some [32, 32], none⟩ false).2.2.acquired = 1
    ∧ (patchHandler [⟨[99, 49], [74, 97], some [80]⟩] [99, 49]
        ⟨some [32, 32], none⟩ false).2.1 = [⟨[99, 49], [], some [80]⟩] := by
  decide

/-- C8 amended: a supplied `cust_name` trimming to empty is rejected with 400
before any store access on create (POST) and replace (PUT), but on a PATCH
with a valid id it is accepted and the store is accessed. -/
theorem empty_name_rejected_only_on_create_and_replace (db : List Row)
    (code city : Option (List Nat)) (id name : List Nat) (qt : Bool)
    (hname : jsTrim name = []) :
    postHandler db ⟨code, some name, city⟩ qt = (400, db, ⟨0, 0⟩)
    ∧ putHandler db id ⟨some name, city⟩ qt = (400, db, ⟨0, 0⟩)
    ∧ (jsTrim id ≠ [] → (patchHandler db id ⟨some name, city⟩ qt).2.2.acquired = 1) := by
  have hval : reqNonEmpty (some name) = false := by simp [reqNonEmpty, hname]
  refine ⟨?_, ?_, ?_⟩
  · simp [postHandler, hval]
  · unfold putHandler
    split
    · rfl
    · simp [hval]
  · intro hid
    have hfs : patchFields ⟨some name, city⟩ ≠ [] := by
      cases city <;> simp [patchFields]
    unfold patchHandler
    rw [if_neg hid]
    simp only [if_neg hfs]
    cases qt
    · simp only [Bool.false_eq_true, if_false]
      split <;> rfl
    · rfl

/-- Witness for the amended C8 with a whitespace name. -/
theorem empty_name_rejected_witness :
    postHandler [⟨[99, 49], [74], none⟩] ⟨some [99, 50], some [32], none⟩ false
      = (400, [⟨[99, 49], [74], none⟩], ⟨0, 0⟩)
    ∧ putHandler [⟨[99, 49], [74], none⟩] [99, 49] ⟨some [32], none⟩ false
      = (400, [⟨[99, 49], [74], none⟩], ⟨0, 0⟩)
    ∧ (patchHandler [⟨[99, 49], [74], none⟩] [99, 49] ⟨some [32], none⟩ false).2.2.acquired
      = 1 := by
  have h := empty_name_rejected_only_on_create_and_replace [⟨[99, 49], [74], none⟩]
    (some [99, 50]) none [99, 49] [32] false (by decide)
  exact ⟨h.1, h.2.1, h.2.2 (by decide)⟩

/-- C9 counterexample: a PATCH city of "<b>" reaches storage as "<B>" — the
raw `<` (code 60) survives, which the `escape` sanitizer (applied only on
POST) would have removed. -/
theorem patch_city_unsanitized_cex :
    (patchHandler [⟨[99, 49], [74], none⟩] [99, 49]
        ⟨none, some [60, 98, 62]⟩ false).2.1 = [⟨[99, 49], [74], some [60, 66, 62]⟩]
    ∧ (60 : Nat) ∈ ([60, 66, 62] : List Nat)
    ∧ (60 : Nat) ∉ escapeCode [60, 98, 62] := by
  refine ⟨by decide, by decide, by decide⟩

/-- C9 amended: `cust_city` is always trimmed, but only POST sanitizes it
against markup: the POST parameter can never contain a raw `<` or `>`, while
the PATCH and PUT parameters keep any raw `<` of the trimmed input. -/
theorem city_sanitized_only_on_create (c : List Nat) :
    (∀ p, postCityParam (some c) = some p → 60 ∉ p ∧ 62 ∉ p)
    ∧ patchFields ⟨none, some c⟩ = [(FieldId.city, titleCaseL (jsTrim c))]
    ∧ (60 ∈ jsTrim c → 60 ∈ titleCaseL (jsTrim c))
    ∧ (60 ∈ jsTrim c → putCityParam (some c) = some (titleCaseL (jsTrim c))) := by
  refine ⟨?_, rfl, ?_, ?_⟩
  · intro p hp
    unfold postCityParam at hp
    simp only [Option.map_some'] at hp
    by_cases he : escapeCode (jsTrim c) = []
    · rw [if_pos he] at hp
      exact absurd hp (by simp)
    · rw [if_neg he] at hp
      have hp' : titleCaseL (escapeCode (jsTrim c)) = p := by
        injection hp
      subst hp'
      exact ⟨notin_titleCaseL_markup (Or.inl rfl) (notin_escapeCode (Or.inl rfl) _),
        notin_titleCaseL_markup (Or.inr rfl) (notin_escapeCode (Or.inr rfl) _)⟩
  · intro h
    unfold titleCaseL
    rw [jsTrim_idem]
    exact mem_sixty_bReplace_jsToLower false h
  · intro h
    have hne : jsTrim c ≠ [] := List.ne_nil_of_mem h
    unfold putCityParam
    simp only [Option.map_some']
    rw [if_neg hne]

/-- Witness for the amended C9 on the city "<b". -/
theorem city_sanitized_only_on_create_witness :
    (60 ∉ ([38, 76, 116, 59, 66] : List Nat) ∧ 62 ∉ ([38, 76, 116, 59, 66] : List Nat))
    ∧ 60 ∈ titleCaseL (jsTrim [60, 98])
    ∧ putCityParam (some [60, 98]) = some (titleCaseL (jsTrim [60, 98])) := by
  have h := city_sanitized_only_on_create [60, 98]
  exact ⟨h.1 [38, 76, 116, 59, 66] (by decide), h.2.2.1 (by decide), h.2.2.2 (by decide)⟩

/-- C10: an empty-string `cust_city` is coerced to `null` by POST and PUT
(JavaScript truthiness), but stored as the empty string by PATCH
(`!== undefined` test): the three mutations disagree. -/
theorem empty_city_handling_disagrees :
    postCityParam (some []) = none
    ∧ putCityParam (some []) = none
    ∧ patchFields ⟨none, some []⟩ = [(FieldId.city, [])]
    ∧ (patchHandler [⟨[99, 49], [74], some [80]⟩] [99, 49] ⟨none, some []⟩ false).2.1
        = [⟨[99, 49], [74], some []⟩] := by
  decide

end RestApi
